import Mathlib

/-!
Shallow embedding of `models_logging/models.py` (django-models-logging).

The Django ORM, the `json` module and the Django serializer are external
collaborators; they are embedded at the level of the interface the source
consumes:
  * the live store is a list of generic records keyed by
    (content type id, primary key);
  * `Changes` and `Revision` rows mirror the model fields;
  * serialized blobs are kept at the parsed-JSON structure level, with an
    explicit `invalid` constructor standing for unparseable text and
    `Option` for an absent (`NULL`) blob, so that `json.loads` /
    `json.dumps` round off exactly as Python does;
  * Python exception classes surfaced by the code are an inductive
    `PyError`.
All operations are translated line by line from the source.
-/

namespace ModelsLogging

/-- Action kind of a change entry (`added|changed|deleted`); the source
dispatches on the string values written by `create_changes`. -/
inductive Action
  | added
  | changed
  | deleted
deriving DecidableEq, Repr

/-- Python exception classes that the code in `models.py` can surface.
`doesNotExist` is the ORM's `ObjectDoesNotExist` / model `DoesNotExist`
("NotFound"); `noPrevChanges` is the repo's own `NoPrevChangesError`. -/
inductive PyError
  | attributeError
  | typeError
  | valueError
  | keyError
  | indexError
  | doesNotExist
  | noPrevChanges
  | deserializationError
deriving DecidableEq, Repr

instance {ε α : Type} [DecidableEq ε] [DecidableEq α] : DecidableEq (Except ε α) := fun x y =>
  match x, y with
  | Except.ok a, Except.ok b =>
      if h : a = b then isTrue (h ▸ rfl) else isFalse fun hh => h (Except.ok.inj hh)
  | Except.error a, Except.error b =>
      if h : a = b then isTrue (h ▸ rfl) else isFalse fun hh => h (Except.error.inj hh)
  | Except.ok _, Except.error _ => isFalse fun hh => Except.noConfusion hh
  | Except.error _, Except.ok _ => isFalse fun hh => Except.noConfusion hh

/-- A value stored inside the top-level dict of a serialized record:
either an opaque scalar, a number (the `pk`), or the nested field
mapping (field name to opaque serialized value). -/
inductive TVal
  | prim (v : String)
  | num (n : Nat)
  | tdict (kvs : List (String × String))
deriving DecidableEq, Repr

/-- The top-level dict of one serialized record. -/
abbrev Data := List (String × TVal)

/-- The parsed form of a valid JSON text as classified by the operations
of the source: a JSON array of objects, a nonempty array whose head is
not an object, a top-level object, or any other top-level value. -/
inductive JTop
  | arrD (ds : List Data)
  | arrOther
  | objTop
  | otherTop
deriving DecidableEq, Repr

/-- A serialized text: either it parses to `j`, or it is unparseable. -/
inductive SText
  | valid (j : JTop)
  | invalid
deriving DecidableEq, Repr

/-- A generic live record: content type id, primary key, field mapping. -/
structure Obj where
  ct : Nat
  pk : Nat
  fields : List (String × String)
deriving DecidableEq, Repr

/-- One row of the `Changes` model. -/
structure Changes where
  id : Nat
  date_created : Nat
  user : Option Nat
  comment : String
  object_id : Nat
  content_type_id : Nat
  db : String
  serialized_data : Option SText
  object_repr : String
  revision : Option Nat
  action : Action
deriving DecidableEq, Repr

/-- One row of the `Revision` model. -/
structure Revision where
  id : Nat
  date_created : Nat
  comment : Option String
deriving DecidableEq, Repr

/-- The persistence layer's state: the live records, the two history
tables, and the content-type registry (model label to type id). -/
structure Store where
  live : List Obj
  changes : List Changes
  revisions : List Revision
  contentTypes : List (String × Nat)
deriving DecidableEq, Repr

/-- First-match association lookup (Python `d[k]` / `k in d` on a dict
with unique keys). -/
def alookup {κ α : Type} [DecidableEq κ] : List (κ × α) → κ → Option α
  | [], _ => none
  | (k, v) :: rest, k' => if k = k' then some v else alookup rest k'

/-- Python `d[k] = v`: replace the value at the first occurrence of `k`,
or append `(k, v)` when `k` is absent. -/
def aupdate {κ α : Type} [DecidableEq κ] : List (κ × α) → κ → α → List (κ × α)
  | [], k', v' => [(k', v')]
  | (k, v) :: rest, k', v' =>
      if k = k' then (k, v') :: rest else (k, v) :: aupdate rest k' v'

/-- Python `d.pop(k, None)`: remove the first occurrence of `k`, if any. -/
def aremove {κ α : Type} [DecidableEq κ] : List (κ × α) → κ → List (κ × α)
  | [], _ => []
  | (k, v) :: rest, k' =>
      if k = k' then rest else (k, v) :: aremove rest k'

/-- `Model.objects.get(pk=...)` resolution inside the live store. -/
def getLive (l : List Obj) (ct pk : Nat) : Option Obj :=
  l.find? fun o => decide (o.ct = ct ∧ o.pk = pk)

/-- `obj.save()`: overwrite the row with the same (type, pk), or insert. -/
def saveObj (l : List Obj) (o : Obj) : List Obj :=
  if l.any (fun x => decide (x.ct = o.ct ∧ x.pk = o.pk)) then
    l.map fun x => if x.ct = o.ct ∧ x.pk = o.pk then o else x
  else o :: l

/-- `obj.delete()`: remove the row with this (type, pk). -/
def deleteObj (l : List Obj) (ct pk : Nat) : List Obj :=
  l.filter fun x => decide (¬(x.ct = ct ∧ x.pk = pk))

/-- Default `Changes` ordering (`Meta.ordering = ("-pk",)`): descending
row identifier. -/
def byIdDesc (a b : Changes) : Prop := b.id ≤ a.id

instance : DecidableRel byIdDesc := fun a b => inferInstanceAs (Decidable (b.id ≤ a.id))

instance : IsTotal Changes byIdDesc := ⟨fun a b => le_total b.id a.id⟩

instance : IsTrans Changes byIdDesc := ⟨fun _ _ _ h h' => le_trans h' h⟩

/-- A `Changes` queryset rendered in the model's default ordering. -/
def orderChanges (l : List Changes) : List Changes :=
  List.insertionSort byIdDesc l

/-- `Changes.prev_changes`: `Changes.objects.filter(content_type_id=...,
object_id=..., id__lt=self.id).first()` under the default `-pk`
ordering, i.e. the entry with the greatest id strictly below `self.id`
for the same (type, pk). -/
def Changes.prev_changes (s : Store) (c : Changes) : Option Changes :=
  (orderChanges (s.changes.filter fun x =>
    decide (x.content_type_id = c.content_type_id ∧ x.object_id = c.object_id ∧
      x.id < c.id))).head?

/-- The `object = GenericForeignKey(...)` descriptor: resolve
(content type, object id) in the live store; Django's descriptor
swallows `ObjectDoesNotExist` and yields `None` when the row is gone. -/
def Changes.gfk_object (s : Store) (c : Changes) : Option Obj :=
  getLive s.live c.content_type_id c.object_id

/-- `Changes.get_object`: `next(deserialize('json', self.serialized_data)).object`
— decode the snapshot blob into a transient record, independent of the
live store. Any malformed input surfaces as the serializer's error. -/
def Changes.get_object (s : Store) (c : Changes) : Except PyError Obj :=
  match c.serialized_data with
  | some (SText.valid (JTop.arrD (d :: _))) =>
      match alookup d "model", alookup d "pk", alookup d "fields" with
      | some (TVal.prim label), some (TVal.num pk), some (TVal.tdict f) =>
          match alookup s.contentTypes label with
          | some ct => Except.ok ⟨ct, pk, f⟩
          | none => Except.error PyError.deserializationError
      | _, _, _ => Except.error PyError.deserializationError
  | _ => Except.error PyError.deserializationError

/-- The next auto-increment `Changes` id. -/
def nextChangeId (s : Store) : Nat :=
  (s.changes.foldl (fun m c => max m c.id) 0) + 1

/-- Model label of a content type id, from the registry. -/
def labelOf (s : Store) (ct : Nat) : String :=
  match s.contentTypes.find? (fun kv => kv.2 == ct) with
  | some kv => kv.1
  | none => ""

/-- The serializer's `encode`: one record wrapped in a one-element array. -/
def encodeObj (s : Store) (o : Obj) : SText :=
  SText.valid (JTop.arrD [[("model", TVal.prim (labelOf s o.ct)),
    ("pk", TVal.num o.pk), ("fields", TVal.tdict o.fields)]])

/-- Modelled from the spec: `create_changes` lives in
`models_logging/revisions.py`, which is not among the sources; per the
spec's `record-change` contract it appends exactly one new Change Entry
for the given object, carrying the given database tag, comment and
action kind and a fresh snapshot of the object, attached to no
revision. -/
def create_changes (s : Store) (o : Obj) (dbtag comment : String) (a : Action) : Store :=
  { s with changes :=
      { id := nextChangeId s
        date_created := 0
        user := none
        comment := comment
        object_id := o.pk
        content_type_id := o.ct
        db := dbtag
        serialized_data := some (encodeObj s o)
        object_repr := ""
        revision := none
        action := a } :: s.changes }

/-- `Changes.revert`, translated branch by branch:
`added` → `self.object.delete()` (the descriptor yields `None` when the
live row is gone, and `None.delete()` raises `AttributeError`);
`deleted` → `obj = self.get_object(); obj.save(); create_changes(obj,
'default', 'Recover object', action='Added')`;
otherwise (`changed`) → `self.prev_changes.object.save()` with
`AttributeError` (absent predecessor, or predecessor whose live object
resolves to `None`) re-raised as `NoPrevChangesError`. -/
def Changes.revert (s : Store) (c : Changes) : Except PyError Store :=
  match c.action with
  | Action.added =>
      match Changes.gfk_object s c with
      | none => Except.error PyError.attributeError
      | some o => Except.ok { s with live := deleteObj s.live o.ct o.pk }
  | Action.deleted =>
      match Changes.get_object s c with
      | Except.error e => Except.error e
      | Except.ok o =>
          Except.ok (create_changes { s with live := saveObj s.live o } o
            "default" "Recover object" Action.added)
  | Action.changed =>
      match Changes.prev_changes s c with
      | none => Except.error PyError.noPrevChanges
      | some p =>
          match Changes.gfk_object s p with
          | none => Except.error PyError.noPrevChanges
          | some o => Except.ok { s with live := saveObj s.live o }

/-- `Changes.revert` run under its `transaction.atomic()` boundary: on
an exception every write is rolled back, so the state component is the
original store. -/
def revertRun (s : Store) (c : Changes) : Store × Option PyError :=
  match Changes.revert s c with
  | Except.ok s' => (s', none)
  | Except.error e => (s, some e)

/-- `self.changes_set.all()` for a revision: the owned entries in the
`Changes` default ordering. -/
def changes_set_all (s : Store) (r : Revision) : List Changes :=
  orderChanges (s.changes.filter fun c => c.revision == some r.id)

/-- The loop body of `Revision.revert`: revert each entry in turn; a
raised exception aborts the loop, leaving the effects of the entries
already processed in place (each entry's own revert is atomic, the loop
is not). -/
def revertList : Store → List Changes → Store × Option PyError
  | s, [] => (s, none)
  | s, c :: rest =>
      match Changes.revert s c with
      | Except.ok s' => revertList s' rest
      | Except.error e => (s, some e)

/-- `Revision.revert`: `for i in self.changes_set.all(): i.revert()`. -/
def Revision.revert (s : Store) (r : Revision) : Store × Option PyError :=
  revertList s (changes_set_all s r)

/-- Deleting a `Revision` row. The `Changes.revision` foreign key is
declared without `on_delete` on Django 1.x (the source imports
`django.core.urlresolvers`), so the framework default `CASCADE` applies:
the owned `Changes` rows are deleted with the revision. -/
def deleteRevision (s : Store) (rid : Nat) : Store :=
  { s with
      revisions := s.revisions.filter fun r => r.id != rid
      changes := s.changes.filter fun c => c.revision != some rid }

/-- `json.loads(self.serialized_data)[0]` as both patch operations
consume it: `None` input raises `TypeError`, unparseable text raises
`ValueError` (`json.JSONDecodeError`), an empty array raises
`IndexError`, a top-level object raises `KeyError` (`data[0]` on a
dict), and every other shape surfaces as `TypeError` in the operations
below. -/
def loadsFirst (sd : Option SText) : Except PyError Data :=
  match sd with
  | none => Except.error PyError.typeError
  | some SText.invalid => Except.error PyError.valueError
  | some (SText.valid (JTop.arrD [])) => Except.error PyError.indexError
  | some (SText.valid (JTop.arrD (d :: _))) => Except.ok d
  | some (SText.valid JTop.arrOther) => Except.error PyError.typeError
  | some (SText.valid JTop.objTop) => Except.error PyError.keyError
  | some (SText.valid JTop.otherTop) => Except.error PyError.typeError

/-- `Changes.set_attr`: parse the blob, write `value` at `attr` at the
top level when `attr in data`, else into `data['fields']`, then
re-serialize `[data]` back into the entry and save it. -/
def Changes.set_attr (c : Changes) (attr value : String) : Except PyError Changes :=
  match loadsFirst c.serialized_data with
  | Except.error e => Except.error e
  | Except.ok d =>
      match alookup d attr with
      | some _ =>
          let d' := aupdate d attr (TVal.prim value)
          Except.ok { c with serialized_data := some (SText.valid (JTop.arrD [d'])) }
      | none =>
          match alookup d "fields" with
          | none => Except.error PyError.keyError
          | some (TVal.tdict f) =>
              let d' := aupdate d "fields" (TVal.tdict (aupdate f attr value))
              Except.ok { c with serialized_data := some (SText.valid (JTop.arrD [d'])) }
          | some _ => Except.error PyError.typeError

/-- `Changes.del_attr`: parse the blob, `data['fields'].pop(attr, None)`,
then re-serialize `[data]` back into the entry and save it. -/
def Changes.del_attr (c : Changes) (attr : String) : Except PyError Changes :=
  match loadsFirst c.serialized_data with
  | Except.error e => Except.error e
  | Except.ok d =>
      match alookup d "fields" with
      | none => Except.error PyError.keyError
      | some (TVal.tdict f) =>
          let d' := aupdate d "fields" (TVal.tdict (aremove f attr))
          Except.ok { c with serialized_data := some (SText.valid (JTop.arrD [d'])) }
      | some _ => Except.error PyError.typeError

/-- A reverse-relation descriptor of the root model
(`model._meta.related_objects`): cardinality, the related model's
content type id, and the foreign-key field on the related model that
points back at the root. -/
structure RelDescriptor where
  one2one : Bool
  relatedCt : Nat
  fkField : String
deriving DecidableEq, Repr

/-- The root model handed to `get_changes_by_obj`: its content type id
and its declared reverse relations. -/
structure ModelMeta where
  ct : Nat
  related_objects : List RelDescriptor
deriving DecidableEq, Repr

/-- The primary keys of the live records of `rel.relatedCt` whose
foreign-key field points at `rootPk` (the reverse accessor's queryset). -/
def relatedPks (s : Store) (rel : RelDescriptor) (rootPk : Nat) : List Nat :=
  (s.live.filter fun o =>
    decide (o.ct = rel.relatedCt) &&
      (alookup o.fields rel.fkField == some (toString rootPk))).map (·.pk)

/-- `Changes.get_changes_by_obj`: resolve the root (raising
`DoesNotExist` when absent), build `history_objects` as a dict from
content type id to primary keys — seeded with the root's pair, then
`update`d once per relation, a one-to-one relation being skipped when
its related record is absent — and return the `Changes` matching any
collected pair, in the default ordering. `related_objects = none`
stands for the `'__all__'` default. -/
def Changes.get_changes_by_obj (s : Store) (model : ModelMeta) (obj_id : Nat)
    (related_objects : Option (List RelDescriptor)) : Except PyError (List Changes) :=
  match getLive s.live model.ct obj_id with
  | none => Except.error PyError.doesNotExist
  | some obj =>
      let rels := match related_objects with
        | none => model.related_objects
        | some l => l
      let history_objects := rels.foldl (fun h rel =>
        if rel.one2one then
          match relatedPks s rel obj.pk with
          | [] => h
          | p :: _ => aupdate h rel.relatedCt [p]
        else aupdate h rel.relatedCt (relatedPks s rel obj.pk))
        [(model.ct, [obj_id])]
      Except.ok (orderChanges (s.changes.filter fun c =>
        history_objects.any fun kv =>
          decide (c.content_type_id = kv.1) && kv.2.contains c.object_id))

/-- The contribution of one relation to the closure query's collected
mapping: nothing for an absent one-to-one related record, the first
related primary key for a present one, all related primary keys for a
one-to-many relation. -/
def relValuesD (s : Store) (rel : RelDescriptor) (rootPk : Nat) : List Nat :=
  if rel.one2one then
    match relatedPks s rel rootPk with
    | [] => []
    | p :: _ => [p]
  else relatedPks s rel rootPk

/-- The `for` loop of `Revision.revert` continued through a prefix of
entries that all succeed. -/
def applyAll : Store → List Changes → Option Store
  | s, [] => some s
  | s, c :: rest =>
      match Changes.revert s c with
      | Except.ok s' => applyAll s' rest
      | Except.error _ => none

/-- The top-level dict of an entry's blob, when the blob is a valid
one-record array. -/
def blobTop (c : Changes) : Option Data :=
  match c.serialized_data with
  | some (SText.valid (JTop.arrD (d :: _))) => some d
  | _ => none

/-- The nested field mapping of an entry's blob. -/
def blobFields (c : Changes) : Option (List (String × String)) :=
  match blobTop c with
  | some d =>
      match alookup d "fields" with
      | some (TVal.tdict f) => some f
      | _ => none
  | none => none

section Fixtures

/-- A live record (type 1, key 1) whose current field value is `new`. -/
def objC1 : Obj := ⟨1, 1, [("a", "new")]⟩

/-- A snapshot blob recording field value `old` for that record. -/
def blobOldC1 : SText :=
  SText.valid (JTop.arrD [[("model", TVal.prim "app.m"), ("pk", TVal.num 1),
    ("fields", TVal.tdict [("a", "old")])]])

/-- The predecessor change entry, holding the `old` snapshot. -/
def e1C1 : Changes := ⟨1, 0, none, "", 1, 1, "default", some blobOldC1, "", none, Action.changed⟩

/-- The entry being reverted. -/
def e2C1 : Changes := ⟨2, 0, none, "", 1, 1, "default", none, "", none, Action.changed⟩

/-- Store for the C1 evaluation: live record at `new`, two `changed`
entries for it. -/
def storeC1 : Store := ⟨[objC1], [e2C1, e1C1], [], [("app.m", 1)]⟩

/-- An `added` entry for (type 1, key 1). -/
def eC2 : Changes := ⟨1, 0, none, "", 1, 1, "default", none, "", none, Action.added⟩

/-- Store for C2: the entry exists in history but its live record is
absent; an unrelated live record is present. -/
def storeC2 : Store := ⟨[⟨2, 9, []⟩], [eC2], [], []⟩

/-- Store for the C2 witness: the live record at (1, 1) is present. -/
def storeC2b : Store := ⟨[⟨1, 1, [("a", "x")]⟩, ⟨2, 9, []⟩], [eC2], [], []⟩

/-- A `deleted` entry for (type 1, key 7) with a valid snapshot. -/
def eC3 : Changes :=
  ⟨1, 0, none, "", 7, 1, "default",
    some (SText.valid (JTop.arrD [[("model", TVal.prim "app.m"), ("pk", TVal.num 7),
      ("fields", TVal.tdict [("a", "x")])]])), "", none, Action.deleted⟩

/-- Store for C3: the record was deleted, only the history row remains. -/
def storeC3 : Store := ⟨[], [eC3], [], [("app.m", 1)]⟩

/-- The oldest `changed` entry of its object: no smaller id exists for
(type 1, key 1). -/
def eC4 : Changes := ⟨1, 0, none, "", 1, 1, "default", none, "", none, Action.changed⟩

/-- Store for C4: only that entry in history, the live record present. -/
def storeC4 : Store := ⟨[⟨1, 1, [("a", "x")]⟩], [eC4], [], []⟩

/-- A revision owning one change entry. -/
def revC5 : Revision := ⟨1, 0, none⟩

/-- The entry owned by revision 1. -/
def eC5 : Changes := ⟨1, 0, none, "", 1, 1, "default", none, "", some 1, Action.changed⟩

/-- Store for C5. -/
def storeC5 : Store := ⟨[], [eC5], [revC5], []⟩

/-- A revision owning three change entries. -/
def rC6 : Revision := ⟨1, 0, none⟩

/-- Owned entry, id 5, `added`: its live record exists, revert succeeds. -/
def e5C6 : Changes := ⟨5, 0, none, "", 1, 1, "default", none, "", some 1, Action.added⟩

/-- Owned entry, id 3, `changed`: fails once the live record is gone. -/
def e3C6 : Changes := ⟨3, 0, none, "", 1, 1, "default", none, "", some 1, Action.changed⟩

/-- Owned entry, id 2, `changed`: never reached. -/
def e2C6 : Changes := ⟨2, 0, none, "", 1, 1, "default", none, "", some 1, Action.changed⟩

/-- Store for the C6 witness. -/
def storeC6 : Store := ⟨[⟨1, 1, []⟩], [e5C6, e3C6, e2C6], [rC6], []⟩

/-- The store after the first owned entry has been reverted. -/
def storeC6mid : Store := ⟨[], [e5C6, e3C6, e2C6], [rC6], []⟩

/-- A one-to-many self-relation of the root model (type 1), with no
related rows. -/
def relSelfC7 : RelDescriptor := ⟨false, 1, "parent"⟩

/-- Root model with the self-relation declared. -/
def mC7x : ModelMeta := ⟨1, [relSelfC7]⟩

/-- A change entry for the root object itself. -/
def eC7x : Changes := ⟨1, 0, none, "", 1, 1, "default", none, "", none, Action.changed⟩

/-- Store for the C7 counterexample. -/
def storeC7x : Store := ⟨[⟨1, 1, []⟩], [eC7x], [], []⟩

/-- A one-to-one relation to type 2 with no related record. -/
def relO2OC7 : RelDescriptor := ⟨true, 2, "root"⟩

/-- A one-to-many relation to type 3. -/
def relO2MC7 : RelDescriptor := ⟨false, 3, "root"⟩

/-- Root model for the C7 witness. -/
def mC7 : ModelMeta := ⟨1, [relO2OC7, relO2MC7]⟩

/-- Store for the C7 witness: root (1, 1), two related type-3 records
(keys 7, 8), one unrelated type-3 record (key 9); history rows for the
root, each type-3 record and a type-2 record. -/
def storeC7 : Store :=
  ⟨[⟨1, 1, []⟩, ⟨3, 7, [("root", "1")]⟩, ⟨3, 8, [("root", "1")]⟩, ⟨3, 9, [("root", "2")]⟩],
    [⟨1, 0, none, "", 1, 1, "default", none, "", none, Action.changed⟩,
     ⟨2, 0, none, "", 7, 3, "default", none, "", none, Action.changed⟩,
     ⟨3, 0, none, "", 8, 3, "default", none, "", none, Action.changed⟩,
     ⟨4, 0, none, "", 9, 3, "default", none, "", none, Action.changed⟩,
     ⟨5, 0, none, "", 5, 2, "default", none, "", none, Action.changed⟩], [], []⟩

/-- Nested field mapping for the C8 counterexample: it contains a field
literally named `fields`, shadowed by the top-level key. -/
def dC8x : Data :=
  [("model", TVal.prim "app.m"), ("pk", TVal.num 1),
   ("fields", TVal.tdict [("fields", "x"), ("a", "y")])]

/-- Entry for the C8 counterexample. -/
def cC8x : Changes :=
  ⟨1, 0, none, "", 1, 1, "default", some (SText.valid (JTop.arrD [dC8x])), "", none,
    Action.changed⟩

/-- What `set_attr cC8x "fields" "z"` writes back: the top-level
`fields` entry — the whole nested mapping — replaced by the scalar. -/
def cC8x' : Changes :=
  { cC8x with serialized_data := some (SText.valid (JTop.arrD
      [[("model", TVal.prim "app.m"), ("pk", TVal.num 1), ("fields", TVal.prim "z")]])) }

/-- Top-level dict for the C8 witness: a well-formed blob whose nested
mapping has fields `name` and `b`. -/
def dC8 : Data :=
  [("model", TVal.prim "app.m"), ("pk", TVal.num 1),
   ("fields", TVal.tdict [("name", "x"), ("b", "y")])]

/-- Entry for the C8 witness. -/
def cC8 : Changes :=
  ⟨1, 0, none, "", 1, 1, "default", some (SText.valid (JTop.arrD [dC8])), "", none,
    Action.changed⟩

/-- Entry with an absent (`NULL`) snapshot blob. -/
def cAbsentC9 : Changes := ⟨1, 0, none, "", 1, 1, "default", none, "", none, Action.changed⟩

/-- Entry with an unparseable snapshot blob. -/
def cInvalidC9 : Changes :=
  ⟨2, 0, none, "", 1, 1, "default", some SText.invalid, "", none, Action.changed⟩

/-- Root model for the C10 witness, no declared relations. -/
def mC10 : ModelMeta := ⟨1, []⟩

/-- Store for the C10 witness: no live record at (1, 5) but a change
entry for exactly that pair. -/
def storeC10 : Store :=
  ⟨[], [⟨1, 0, none, "", 5, 1, "default", none, "", none, Action.changed⟩], [], []⟩

end Fixtures

section AssocLemmas

variable {κ α : Type} [DecidableEq κ]

theorem alookup_aupdate_self (l : List (κ × α)) (k : κ) (v : α) :
    alookup (aupdate l k v) k = some v := by
  induction l with
  | nil => simp [aupdate, alookup]
  | cons kv rest ih =>
      obtain ⟨k', v'⟩ := kv
      by_cases h : k' = k
      · simp [aupdate, alookup, h]
      · simp [aupdate, alookup, h, ih]

theorem alookup_aupdate_other (l : List (κ × α)) (k k' : κ) (v : α) (h : k' ≠ k) :
    alookup (aupdate l k v) k' = alookup l k' := by
  induction l with
  | nil => simp [aupdate, alookup, h.symm]
  | cons kv rest ih =>
      obtain ⟨k₀, v₀⟩ := kv
      by_cases h₀ : k₀ = k
      · subst h₀
        simp [aupdate, alookup, h.symm]
      · simp only [aupdate, if_neg h₀, alookup]
        by_cases h₁ : k₀ = k'
        · simp [h₁]
        · simp [h₁, ih]

theorem aupdate_self_id (l : List (κ × α)) (k : κ) (v : α)
    (h : alookup l k = some v) : aupdate l k v = l := by
  induction l with
  | nil => simp [alookup] at h
  | cons kv rest ih =>
      obtain ⟨k₀, v₀⟩ := kv
      by_cases h₀ : k₀ = k
      · simp only [alookup, if_pos h₀] at h
        obtain rfl : v₀ = v := Option.some.inj h
        simp [aupdate, h₀]
      · simp only [alookup, if_neg h₀] at h
        simp [aupdate, h₀, ih h]

theorem aremove_of_not_mem (l : List (κ × α)) (k : κ)
    (h : alookup l k = none) : aremove l k = l := by
  induction l with
  | nil => simp [aremove]
  | cons kv rest ih =>
      obtain ⟨k₀, v₀⟩ := kv
      by_cases h₀ : k₀ = k
      · simp [alookup, h₀] at h
      · simp only [alookup, if_neg h₀] at h
        simp [aremove, h₀, ih h]

theorem alookup_aremove_self (l : List (κ × α)) (k : κ)
    (hnd : (l.map Prod.fst).Nodup) : alookup (aremove l k) k = none := by
  induction l with
  | nil => simp [aremove, alookup]
  | cons kv rest ih =>
      obtain ⟨k₀, v₀⟩ := kv
      simp only [List.map_cons, List.nodup_cons] at hnd
      by_cases h₀ : k₀ = k
      · subst h₀
        simp only [aremove, if_pos rfl]
        cases hrest : alookup rest k₀ with
        | none => exact hrest
        | some v =>
            exfalso
            apply hnd.1
            clear ih hnd
            induction rest with
            | nil => simp [alookup] at hrest
            | cons kv' rest' ih' =>
                obtain ⟨k₁, v₁⟩ := kv'
                by_cases h₁ : k₁ = k₀
                · simp [h₁]
                · simp only [alookup, if_neg h₁] at hrest
                  simp only [List.map_cons, List.mem_cons]
                  exact Or.inr (ih' hrest)
      · simp [aremove, h₀, alookup, ih hnd.2]

theorem alookup_aremove_other (l : List (κ × α)) (k k' : κ) (h : k' ≠ k) :
    alookup (aremove l k) k' = alookup l k' := by
  induction l with
  | nil => simp [aremove]
  | cons kv rest ih =>
      obtain ⟨k₀, v₀⟩ := kv
      by_cases h₀ : k₀ = k
      · subst h₀
        simp [aremove, alookup, h.symm]
      · simp only [aremove, if_neg h₀, alookup]
        by_cases h₁ : k₀ = k'
        · simp [h₁]
        · simp [h₁, ih]

theorem aupdate_append_of_fresh (l : List (κ × α)) (k : κ) (v : α)
    (h : alookup l k = none) : aupdate l k v = l ++ [(k, v)] := by
  induction l with
  | nil => simp [aupdate]
  | cons kv rest ih =>
      obtain ⟨k₀, v₀⟩ := kv
      by_cases h₀ : k₀ = k
      · simp [alookup, h₀] at h
      · simp only [alookup, if_neg h₀] at h
        simp [aupdate, h₀, ih h]

theorem alookup_append_fresh (l : List (κ × α)) (k k' : κ) (v : α)
    (h : alookup l k' = none) :
    alookup (l ++ [(k, v)]) k' = if k = k' then some v else none := by
  induction l with
  | nil => simp [alookup]
  | cons kv rest ih =>
      obtain ⟨k₀, v₀⟩ := kv
      by_cases h₀ : k₀ = k'
      · simp [alookup, h₀] at h
      · simp only [alookup, if_neg h₀] at h
        simp [alookup, h₀, ih h]

end AssocLemmas

section StoreLemmas

theorem find_map_replace (o : Obj) :
    ∀ l : List Obj, l.any (fun x => decide (x.ct = o.ct ∧ x.pk = o.pk)) = true →
      List.find? (fun x => decide (x.ct = o.ct ∧ x.pk = o.pk))
        (l.map fun x => if x.ct = o.ct ∧ x.pk = o.pk then o else x) = some o
  | [], h => by simp at h
  | x :: rest, h => by
      by_cases hx : x.ct = o.ct ∧ x.pk = o.pk
      · simp only [List.map_cons, if_pos hx]
        rw [List.find?_cons_of_pos _ (by simp)]
      · have hrest : rest.any (fun x => decide (x.ct = o.ct ∧ x.pk = o.pk)) = true := by
          simp only [List.any_cons, Bool.or_eq_true, decide_eq_true_eq] at h
          rcases h with h' | h'
          · exact absurd h' hx
          · simpa using h'
        simp only [List.map_cons, if_neg hx]
        rw [List.find?_cons_of_neg _ (by simpa using hx)]
        exact find_map_replace o rest hrest

theorem getLive_saveObj (l : List Obj) (o : Obj) :
    getLive (saveObj l o) o.ct o.pk = some o := by
  unfold saveObj
  by_cases h : l.any (fun x => decide (x.ct = o.ct ∧ x.pk = o.pk)) = true
  · simp only [h, if_true]
    exact find_map_replace o l h
  · rw [if_neg h]
    unfold getLive
    rw [List.find?_cons_of_pos _ (by simp)]

theorem getLive_deleteObj (l : List Obj) (ct pk : Nat) :
    getLive (deleteObj l ct pk) ct pk = none := by
  unfold getLive deleteObj
  rw [List.find?_eq_none]
  intro o ho
  have h2 := (List.mem_filter.mp ho).2
  simp only [decide_eq_true_eq] at h2 ⊢
  exact h2

theorem getLive_mem_props {l : List Obj} {ct pk : Nat} {o : Obj}
    (h : getLive l ct pk = some o) : o.ct = ct ∧ o.pk = pk := by
  have := List.find?_some h
  simpa using this

end StoreLemmas

/-- C1: evaluation of the code at the failing input. The entry with id 2
is a `changed` entry whose immediately preceding entry (id 1, same type
and key) carries a snapshot with field value `old`, while the live
record holds `new`. The code's revert succeeds but returns the store
unchanged — it persists `prev_changes.object`, the live record fetched
through the generic foreign key, instead of the decoded snapshot
`get_object()` — so the persisted state equals the current live state
(`new`), not the predecessor's snapshot (`old`) as the claim requires. -/
theorem C1_changed_revert_saves_live_state :
    Changes.prev_changes storeC1 e2C1 = some e1C1 ∧
    Changes.get_object storeC1 e1C1 = Except.ok ⟨1, 1, [("a", "old")]⟩ ∧
    Changes.revert storeC1 e2C1 = Except.ok storeC1 ∧
    getLive storeC1.live 1 1 = some ⟨1, 1, [("a", "new")]⟩ ∧
    ("old" : String) ≠ "new" := by decide

/-- C2 counterexample: reverting an `added` entry whose live record is
absent fails — but with `AttributeError` (the generic foreign key
resolves to `None` and `None.delete()` is called), which is not the
store's `NotFound` (`DoesNotExist`) error. -/
theorem C2_added_revert_missing_cex :
    eC2.action = Action.added ∧
    Changes.gfk_object storeC2 eC2 = none ∧
    Changes.revert storeC2 eC2 = Except.error PyError.attributeError ∧
    PyError.attributeError ≠ PyError.doesNotExist := by decide

/-- C2 amended: reverting an `added` entry deletes the live record at
its (type, key) when that record exists; when it does not exist the
revert fails with an `AttributeError` — propagated, not swallowed — and
not with the store's `NotFound` error. -/
theorem C2_added_revert (s : Store) (c : Changes) (h : c.action = Action.added) :
    (Changes.gfk_object s c = none →
      Changes.revert s c = Except.error PyError.attributeError) ∧
    (∀ o : Obj, Changes.gfk_object s c = some o →
      Changes.revert s c =
        Except.ok { s with live := deleteObj s.live c.content_type_id c.object_id } ∧
      getLive (deleteObj s.live c.content_type_id c.object_id)
        c.content_type_id c.object_id = none) := by
  constructor
  · intro hn
    simp [Changes.revert, h, hn]
  · intro o ho
    obtain ⟨hct, hpk⟩ := getLive_mem_props ho
    constructor
    · simp [Changes.revert, h, ho, hct, hpk]
    · exact getLive_deleteObj s.live c.content_type_id c.object_id

/-- C2 witness: with the live record present, the revert deletes it. -/
theorem C2_added_revert_witness :
    Changes.revert storeC2b eC2 =
      Except.ok { storeC2b with live := deleteObj storeC2b.live 1 1 } ∧
    getLive (deleteObj storeC2b.live 1 1) 1 1 = none :=
  (C2_added_revert storeC2b eC2 rfl).2 ⟨1, 1, [("a", "x")]⟩ (by decide)

/-- C4: reverting a `changed` entry that is the oldest entry for its
(type, key) — no entry with a smaller id exists for that pair — fails
with `NoPrevChangesError`, and under the atomic transaction boundary
the store is left unchanged. -/
theorem C4_changed_revert_no_predecessor (s : Store) (c : Changes)
    (h : c.action = Action.changed)
    (hold : ∀ x ∈ s.changes, x.content_type_id = c.content_type_id →
      x.object_id = c.object_id → ¬ x.id < c.id) :
    revertRun s c = (s, some PyError.noPrevChanges) := by
  have hfil : s.changes.filter (fun x =>
      decide (x.content_type_id = c.content_type_id ∧ x.object_id = c.object_id ∧
        x.id < c.id)) = [] := by
    rw [List.filter_eq_nil_iff]
    intro x hx
    simp only [decide_eq_true_eq, not_and]
    intro h1 h2
    exact hold x hx h1 h2
  have hprev : Changes.prev_changes s c = none := by
    unfold Changes.prev_changes
    rw [hfil]
    rfl
  simp [revertRun, Changes.revert, h, hprev]

/-- C4 witness: a store holding exactly one `changed` entry for its
object; the revert fails with `NoPrevChangesError` and mutates nothing. -/
theorem C4_changed_revert_no_predecessor_witness :
    revertRun storeC4 eC4 = (storeC4, some PyError.noPrevChanges) :=
  C4_changed_revert_no_predecessor storeC4 eC4 rfl (by decide)

/-- C5 counterexample: a revision owning one change entry; after the
revision is deleted, that entry no longer exists in the history store,
contradicting the claim that change entries outlive revision deletion. -/
theorem C5_revision_delete_cex :
    eC5 ∈ storeC5.changes ∧ eC5.revision = some 1 ∧
    eC5 ∉ (deleteRevision storeC5 1).changes := by decide

/-- C5 amended: deleting a revision cascade-deletes its owned change
entries (the `revision` foreign key has the framework-default
`CASCADE`): afterwards exactly the entries not referencing the revision
remain, the live store is untouched, and exactly the other revisions
remain. -/
theorem C5_revision_delete_cascades (s : Store) (rid : Nat) (c : Changes) (r : Revision) :
    (c ∈ (deleteRevision s rid).changes ↔ c ∈ s.changes ∧ c.revision ≠ some rid) ∧
    (deleteRevision s rid).live = s.live ∧
    (r ∈ (deleteRevision s rid).revisions ↔ r ∈ s.revisions ∧ r.id ≠ rid) := by
  refine ⟨?_, rfl, ?_⟩ <;> simp [deleteRevision, List.mem_filter]

/-- C9 counterexample: on an absent blob `set_attr` raises `TypeError`
while on an unparseable blob it raises `ValueError` — two different
undifferentiated built-in error kinds, so there is no single
distinguishable `MalformedSnapshot` error kind. -/
theorem C9_patch_malformed_cex :
    Changes.set_attr cAbsentC9 "a" "v" = Except.error PyError.typeError ∧
    Changes.set_attr cInvalidC9 "a" "v" = Except.error PyError.valueError ∧
    PyError.typeError ≠ PyError.valueError := by decide

/-- C9 amended: on an entry whose blob is absent, both patch operations
fail with `TypeError`; on an entry whose blob is unparseable, both fail
with `ValueError` — they never succeed, but the failure is an
undifferentiated built-in error, not a dedicated `MalformedSnapshot`
kind. -/
theorem C9_patch_malformed (c : Changes) (attr value : String) :
    (c.serialized_data = none →
      Changes.set_attr c attr value = Except.error PyError.typeError ∧
      Changes.del_attr c attr = Except.error PyError.typeError) ∧
    (c.serialized_data = some SText.invalid →
      Changes.set_attr c attr value = Except.error PyError.valueError ∧
      Changes.del_attr c attr = Except.error PyError.valueError) := by
  constructor <;> intro h <;>
    exact ⟨by simp [Changes.set_attr, loadsFirst, h], by simp [Changes.del_attr, loadsFirst, h]⟩

/-- C9 witness: both patch operations at concrete malformed entries. -/
theorem C9_patch_malformed_witness :
    (Changes.set_attr cAbsentC9 "b" "w" = Except.error PyError.typeError ∧
     Changes.del_attr cAbsentC9 "b" = Except.error PyError.typeError) ∧
    (Changes.set_attr cInvalidC9 "b" "w" = Except.error PyError.valueError ∧
     Changes.del_attr cInvalidC9 "b" = Except.error PyError.valueError) :=
  ⟨(C9_patch_malformed cAbsentC9 "b" "w").1 rfl,
   (C9_patch_malformed cInvalidC9 "b" "w").2 rfl⟩

/-- C10: `get_changes_by_obj` resolves the root record in the live
store first, so when no live record has the given key the query fails
with the store's `DoesNotExist` error — for any form of the
`related_objects` argument and regardless of the history's contents. -/
theorem C10_history_requires_live_root (s : Store) (model : ModelMeta) (obj_id : Nat)
    (related_objects : Option (List RelDescriptor))
    (h : getLive s.live model.ct obj_id = none) :
    Changes.get_changes_by_obj s model obj_id related_objects =
      Except.error PyError.doesNotExist := by
  simp [Changes.get_changes_by_obj, h]

/-- C10 witness: a store with a change entry for (type 1, key 5) but no
live record there; the history query fails with `DoesNotExist`. -/
theorem C10_history_requires_live_root_witness :
    (storeC10.changes.any fun c =>
      decide (c.content_type_id = mC10.ct ∧ c.object_id = 5)) = true ∧
    Changes.get_changes_by_obj storeC10 mC10 5 none = Except.error PyError.doesNotExist :=
  ⟨by decide, C10_history_requires_live_root storeC10 mC10 5 none (by decide)⟩

/-- C3: reverting a `deleted` entry whose snapshot decodes to an object
matching the entry's (type, key) persists the decoded object as a live
record and appends exactly one new change entry of kind `added` with
comment `Recover object` for that same (type, key), so the history
length for the pair grows by exactly one. (`create_changes` lives in
`models_logging/revisions.py`, outside the sources, and is modelled
from the spec's `record-change` contract.) -/
theorem C3_deleted_revert_recovers (s : Store) (c : Changes) (o : Obj)
    (h : c.action = Action.deleted)
    (hobj : Changes.get_object s c = Except.ok o)
    (hct : o.ct = c.content_type_id) (hpk : o.pk = c.object_id) :
    ∃ e : Changes,
      Changes.revert s c = Except.ok
        { live := saveObj s.live o, changes := e :: s.changes,
          revisions := s.revisions, contentTypes := s.contentTypes } ∧
      e.action = Action.added ∧
      e.comment = "Recover object" ∧
      e.content_type_id = c.content_type_id ∧
      e.object_id = c.object_id ∧
      getLive (saveObj s.live o) c.content_type_id c.object_id = some o ∧
      ((e :: s.changes).filter fun x =>
          decide (x.content_type_id = c.content_type_id ∧
            x.object_id = c.object_id)).length =
        (s.changes.filter fun x =>
          decide (x.content_type_id = c.content_type_id ∧
            x.object_id = c.object_id)).length + 1 := by
  refine ⟨⟨nextChangeId { s with live := saveObj s.live o }, 0, none, "Recover object",
    o.pk, o.ct, "default", some (encodeObj { s with live := saveObj s.live o } o), "",
    none, Action.added⟩, ?_, rfl, rfl, hct, hpk, ?_, ?_⟩
  · simp [Changes.revert, h, hobj, create_changes]
  · rw [← hct, ← hpk]
    exact getLive_saveObj s.live o
  · rw [List.filter_cons_of_pos (by simp [hct, hpk])]
    simp

/-- C3 witness: the `deleted` entry for (type 1, key 7) with its valid
snapshot; the revert recreates the record and appends the recovery
entry. -/
theorem C3_deleted_revert_recovers_witness :
    ∃ e : Changes,
      Changes.revert storeC3 eC3 = Except.ok
        { live := saveObj storeC3.live ⟨1, 7, [("a", "x")]⟩,
          changes := e :: storeC3.changes,
          revisions := storeC3.revisions, contentTypes := storeC3.contentTypes } ∧
      e.action = Action.added ∧
      e.comment = "Recover object" ∧
      e.content_type_id = eC3.content_type_id ∧
      e.object_id = eC3.object_id ∧
      getLive (saveObj storeC3.live ⟨1, 7, [("a", "x")]⟩)
        eC3.content_type_id eC3.object_id = some ⟨1, 7, [("a", "x")]⟩ ∧
      ((e :: storeC3.changes).filter fun x =>
          decide (x.content_type_id = eC3.content_type_id ∧
            x.object_id = eC3.object_id)).length =
        (storeC3.changes.filter fun x =>
          decide (x.content_type_id = eC3.content_type_id ∧
            x.object_id = eC3.object_id)).length + 1 :=
  C3_deleted_revert_recovers storeC3 eC3 ⟨1, 7, [("a", "x")]⟩ rfl (by decide) rfl rfl

/-- The `for` loop of `Revision.revert` over a queryset that splits into
a succeeding prefix and a first failing entry: the loop stops at the
failure, keeping the prefix's effects and surfacing that error. -/
theorem revertList_first_failure :
    ∀ (pre : List Changes) (s s' : Store) (e : Changes) (post : List Changes)
      (err : PyError),
      applyAll s pre = some s' → Changes.revert s' e = Except.error err →
      revertList s (pre ++ e :: post) = (s', some err)
  | [], s, s', e, post, err, hpre, he => by
      simp only [applyAll, Option.some.injEq] at hpre
      subst hpre
      simp [revertList, he]
  | c :: rest, s, s', e, post, err, hpre, he => by
      simp only [applyAll] at hpre
      cases hc : Changes.revert s c with
      | ok s₁ =>
          rw [hc] at hpre
          simp only [List.cons_append, revertList, hc]
          exact revertList_first_failure rest s₁ s' e post err hpre he
      | error e₁ =>
          rw [hc] at hpre
          simp at hpre

/-- C6: `Revision.revert` processes exactly the change entries owned by
the revision, in newest-first (descending id) order; when the owned
queryset splits into a prefix that reverts successfully and a first
failing entry, the loop aborts there — the remaining entries are not
reverted — and that first failure is surfaced to the caller. -/
theorem C6_revision_revert_aborts_on_failure (s : Store) (r : Revision)
    (pre : List Changes) (e : Changes) (post : List Changes) (s' : Store) (err : PyError)
    (hsplit : changes_set_all s r = pre ++ e :: post)
    (hpre : applyAll s pre = some s')
    (he : Changes.revert s' e = Except.error err) :
    Revision.revert s r = (s', some err) ∧
    List.Sorted byIdDesc (changes_set_all s r) ∧
    ∀ x : Changes, x ∈ changes_set_all s r ↔ x ∈ s.changes ∧ x.revision = some r.id := by
  refine ⟨?_, ?_, ?_⟩
  · unfold Revision.revert
    rw [hsplit]
    exact revertList_first_failure pre s s' e post err hpre he
  · unfold changes_set_all orderChanges
    exact List.sorted_insertionSort byIdDesc _
  · intro x
    unfold changes_set_all orderChanges
    rw [List.mem_insertionSort, List.mem_filter]
    simp

/-- C6 witness: revision 1 owns entries with ids 5, 3, 2; the id-5
revert succeeds (deleting the live record), the id-3 revert then fails,
and the loop stops there with that error — entry 2 is never processed. -/
theorem C6_revision_revert_aborts_on_failure_witness :
    Revision.revert storeC6 rC6 = (storeC6mid, some PyError.noPrevChanges) ∧
    changes_set_all storeC6 rC6 = [e5C6, e3C6, e2C6] :=
  ⟨(C6_revision_revert_aborts_on_failure storeC6 rC6 [e5C6] e3C6 [e2C6] storeC6mid
      PyError.noPrevChanges (by decide) (by decide) (by decide)).1, by decide⟩

/-- C8 counterexample: a blob whose nested mapping itself contains a
field named `fields` — a name present in the nested field mapping. The
top-level-first lookup of `set_attr` matches the top-level `fields` key
and overwrites the *whole* nested mapping with the scalar value, wiping
the other field `a`, so `set_attr` on a name present in the nested
mapping does not overwrite only that field. -/
theorem C8_patch_shadowed_cex :
    blobFields cC8x = some [("fields", "x"), ("a", "y")] ∧
    alookup [("fields", "x"), ("a", "y")] "fields" = some "x" ∧
    Changes.set_attr cC8x "fields" "z" = Except.ok cC8x' ∧
    blobFields cC8x' = none := by decide

/-- C8 amended: for a single-record blob whose nested mapping `f` is a
dict, `set_attr` on a name that is *not also a top-level key* and is
present in the nested mapping overwrites only that field — every other
field and the top-level primary-key entry are unchanged; `del_attr`
removes the name from the nested mapping only (every top-level entry
other than the mapping itself is untouched), and is a no-op when the
name is absent from the mapping — in particular for a top-level
(primary-key) field name, which cannot occur inside the mapping. -/
theorem C8_patch_frame (c : Changes) (d : Data) (f : List (String × String))
    (hsd : c.serialized_data = some (SText.valid (JTop.arrD [d])))
    (hf : alookup d "fields" = some (TVal.tdict f))
    (hnd : (f.map Prod.fst).Nodup) :
    (∀ attr value : String, alookup d attr = none → (alookup f attr).isSome →
      ∃ (c' : Changes) (f' : List (String × String)),
        Changes.set_attr c attr value = Except.ok c' ∧
        blobFields c' = some f' ∧
        alookup f' attr = some value ∧
        (∀ k : String, k ≠ attr → alookup f' k = alookup f k) ∧
        (blobTop c').map (fun d' => alookup d' "pk") = some (alookup d "pk")) ∧
    (∀ attr : String, alookup f attr = none → Changes.del_attr c attr = Except.ok c) ∧
    (∀ attr : String,
      ∃ (c' : Changes) (f' : List (String × String)),
        Changes.del_attr c attr = Except.ok c' ∧
        blobFields c' = some f' ∧
        alookup f' attr = none ∧
        (∀ k : String, k ≠ attr → alookup f' k = alookup f k) ∧
        (∀ k : String, k ≠ "fields" →
          (blobTop c').map (fun d' => alookup d' k) = some (alookup d k))) := by
  refine ⟨?_, ?_, ?_⟩
  · intro attr value hattr _
    refine ⟨{ c with serialized_data := some (SText.valid (JTop.arrD
        [aupdate d "fields" (TVal.tdict (aupdate f attr value))])) },
      aupdate f attr value, ?_, ?_, ?_, ?_, ?_⟩
    · simp [Changes.set_attr, loadsFirst, hsd, hattr, hf]
    · simp [blobFields, blobTop, alookup_aupdate_self]
    · exact alookup_aupdate_self f attr value
    · intro k hk
      exact alookup_aupdate_other f attr k value hk
    · simp only [blobTop, Option.map_some']
      rw [alookup_aupdate_other d "fields" "pk" _ (by decide)]
  · intro attr hattr
    have h1 : aremove f attr = f := aremove_of_not_mem f attr hattr
    have h2 : aupdate d "fields" (TVal.tdict f) = d := aupdate_self_id d "fields" _ hf
    obtain ⟨cid, cdc, cu, ccom, coid, cct, cdb, csd, crep, crev, cact⟩ := c
    simp only at hsd
    subst hsd
    simp [Changes.del_attr, loadsFirst, hf, h1, h2]
  · intro attr
    refine ⟨{ c with serialized_data := some (SText.valid (JTop.arrD
        [aupdate d "fields" (TVal.tdict (aremove f attr))])) },
      aremove f attr, ?_, ?_, ?_, ?_, ?_⟩
    · simp [Changes.del_attr, loadsFirst, hsd, hf]
    · simp [blobFields, blobTop, alookup_aupdate_self]
    · exact alookup_aremove_self f attr hnd
    · intro k hk
      exact alookup_aremove_other f attr k hk
    · intro k hk
      simp only [blobTop, Option.map_some']
      rw [alookup_aupdate_other d "fields" k _ (fun hh => hk hh)]

/-- C8 witness: on the well-formed blob of `cC8`, setting the nested
field `name` rewrites only it and keeps the `pk` entry, and deleting
the top-level primary-key name `pk` is a no-op. -/
theorem C8_patch_frame_witness :
    (∃ (c' : Changes) (f' : List (String × String)),
      Changes.set_attr cC8 "name" "v" = Except.ok c' ∧
      blobFields c' = some f' ∧
      alookup f' "name" = some "v" ∧
      (∀ k : String, k ≠ "name" → alookup f' k = alookup [("name", "x"), ("b", "y")] k) ∧
      (blobTop c').map (fun d' => alookup d' "pk") = some (alookup dC8 "pk")) ∧
    Changes.del_attr cC8 "pk" = Except.ok cC8 :=
  ⟨(C8_patch_frame cC8 dC8 [("name", "x"), ("b", "y")] rfl (by decide) (by decide)).1
      "name" "v" (by decide) (by decide),
   (C8_patch_frame cC8 dC8 [("name", "x"), ("b", "y")] rfl (by decide) (by decide)).2.1
      "pk" (by decide)⟩

/-- Matching against a dict freshly extended at key `k`: the entry
matches either through the old dict or through the new pair. -/
theorem any_aupdate_fresh (h : List (Nat × List Nat)) (k : Nat) (v : List Nat)
    (ct oid : Nat) (hfr : alookup h k = none) :
    ((aupdate h k v).any fun kv => decide (ct = kv.1) && kv.2.contains oid) = true ↔
      ((h.any fun kv => decide (ct = kv.1) && kv.2.contains oid) = true ∨
        (ct = k ∧ oid ∈ v)) := by
  rw [aupdate_append_of_fresh h k v hfr, List.any_append]
  simp [List.contains, List.elem_iff]

/-- The `history_objects` loop of `get_changes_by_obj`, analysed for
relations whose content types are pairwise distinct and absent from the
accumulator: an entry matches the final dict iff it matches the
accumulator or one of the relations' contributions. -/
theorem closure_fold_mem (s : Store) (rootPk : Nat) :
    ∀ (rels : List RelDescriptor) (h : List (Nat × List Nat)) (ct oid : Nat),
      (∀ rel ∈ rels, alookup h rel.relatedCt = none) →
      (rels.map fun rel => rel.relatedCt).Nodup →
      (((rels.foldl (fun h rel =>
          if rel.one2one then
            match relatedPks s rel rootPk with
            | [] => h
            | p :: _ => aupdate h rel.relatedCt [p]
          else aupdate h rel.relatedCt (relatedPks s rel rootPk)) h).any
        fun kv => decide (ct = kv.1) && kv.2.contains oid) = true ↔
      ((h.any fun kv => decide (ct = kv.1) && kv.2.contains oid) = true ∨
        ∃ rel ∈ rels, ct = rel.relatedCt ∧ oid ∈ relValuesD s rel rootPk))
  | [], h, ct, oid, _, _ => by simp
  | rel :: rest, h, ct, oid, hfresh, hnd => by
      simp only [List.map_cons, List.nodup_cons] at hnd
      obtain ⟨hnotin, hndrest⟩ := hnd
      have hfr : alookup h rel.relatedCt = none := hfresh rel (List.mem_cons_self rel rest)
      have hfreshrest : ∀ (k : Nat) (v : List Nat), ∀ r' ∈ rest,
          alookup (aupdate h rel.relatedCt v) r'.relatedCt = none := by
        intro k v r' hr'
        rw [aupdate_append_of_fresh h rel.relatedCt v hfr,
          alookup_append_fresh h rel.relatedCt r'.relatedCt v
            (hfresh r' (List.mem_cons_of_mem rel hr'))]
        rw [if_neg]
        intro hh
        exact hnotin (hh ▸ List.mem_map_of_mem (fun rel => rel.relatedCt) hr')
      have hexists : ∀ P : RelDescriptor → Prop,
          ((∃ x ∈ rel :: rest, P x) ↔ P rel ∨ ∃ x ∈ rest, P x) := by
        intro P
        constructor
        · rintro ⟨x, hx, hP⟩
          rcases List.mem_cons.mp hx with h1 | h1
          · exact Or.inl (h1 ▸ hP)
          · exact Or.inr ⟨x, h1, hP⟩
        · rintro (h1 | ⟨x, hx, hP⟩)
          · exact ⟨rel, List.mem_cons_self rel rest, h1⟩
          · exact ⟨x, List.mem_cons_of_mem rel hx, hP⟩
      rw [List.foldl_cons, hexists]
      by_cases h1 : rel.one2one
      · cases hpks : relatedPks s rel rootPk with
        | nil =>
            simp only [if_pos h1, hpks]
            rw [closure_fold_mem s rootPk rest h ct oid
              (fun r' hr' => hfresh r' (List.mem_cons_of_mem rel hr')) hndrest]
            have : ¬(ct = rel.relatedCt ∧ oid ∈ relValuesD s rel rootPk) := by
              simp [relValuesD, h1, hpks]
            tauto
        | cons p ps =>
            simp only [if_pos h1, hpks]
            rw [closure_fold_mem s rootPk rest (aupdate h rel.relatedCt [p]) ct oid
              (hfreshrest rel.relatedCt [p]) hndrest]
            rw [any_aupdate_fresh h rel.relatedCt [p] ct oid hfr]
            have : (ct = rel.relatedCt ∧ oid ∈ relValuesD s rel rootPk) ↔
                (ct = rel.relatedCt ∧ oid ∈ [p]) := by
              simp [relValuesD, h1, hpks]
            rw [this]
            tauto
      · simp only [if_neg h1]
        rw [closure_fold_mem s rootPk rest
          (aupdate h rel.relatedCt (relatedPks s rel rootPk)) ct oid
          (hfreshrest rel.relatedCt (relatedPks s rel rootPk)) hndrest]
        rw [any_aupdate_fresh h rel.relatedCt (relatedPks s rel rootPk) ct oid hfr]
        have : (ct = rel.relatedCt ∧ oid ∈ relValuesD s rel rootPk) ↔
            (ct = rel.relatedCt ∧ oid ∈ relatedPks s rel rootPk) := by
          simp [relValuesD, h1]
        rw [this]
        tauto

/-- C7 counterexample: the root model declares a one-to-many relation
whose related model is the root's own type (a self-relation) with no
related rows. `history_objects.update` then *overwrites* the root's own
(type, key) pair with the empty key list, so the query result omits the
change entry matching the root's pair — the result is not the union of
the root's entries and the related entries. -/
theorem C7_closure_query_self_relation_cex :
    eC7x ∈ storeC7x.changes ∧
    eC7x.content_type_id = mC7x.ct ∧ eC7x.object_id = 1 ∧
    Changes.get_changes_by_obj storeC7x mC7x 1 none = Except.ok [] := by decide

/-- C7 amended: when the relations' content types are pairwise distinct
and differ from the root's, the closure query succeeds and returns
exactly the change entries matching the root's (type, key) pair or some
relation's contribution — nothing for a one-to-one relation whose
related record is absent (the `NotFound` is swallowed), the first
related key for a present one-to-one, and all currently related keys
for a one-to-many relation. -/
theorem C7_closure_query (s : Store) (model : ModelMeta) (obj_id : Nat)
    (related_objects : Option (List RelDescriptor)) (rels : List RelDescriptor) (obj : Obj)
    (hrels : (match related_objects with
      | none => model.related_objects
      | some l => l) = rels)
    (hobj : getLive s.live model.ct obj_id = some obj)
    (hnd : (rels.map fun rel => rel.relatedCt).Nodup)
    (hroot : ∀ rel ∈ rels, rel.relatedCt ≠ model.ct) :
    ∃ res : List Changes,
      Changes.get_changes_by_obj s model obj_id related_objects = Except.ok res ∧
      ∀ c : Changes, c ∈ res ↔ c ∈ s.changes ∧
        ((c.content_type_id = model.ct ∧ c.object_id = obj_id) ∨
          ∃ rel ∈ rels, c.content_type_id = rel.relatedCt ∧
            c.object_id ∈ relValuesD s rel obj.pk) := by
  subst hrels
  unfold Changes.get_changes_by_obj
  rw [hobj]
  refine ⟨_, rfl, ?_⟩
  intro c
  unfold orderChanges
  rw [List.mem_insertionSort, List.mem_filter]
  have hfresh : ∀ rel ∈ (match related_objects with
      | none => model.related_objects
      | some l => l),
      alookup [(model.ct, [obj_id])] rel.relatedCt = none := by
    intro rel hr
    have : model.ct ≠ rel.relatedCt := (hroot rel hr).symm
    simp [alookup, this]
  rw [closure_fold_mem s obj.pk _ [(model.ct, [obj_id])]
    c.content_type_id c.object_id hfresh hnd]
  have hbase : (([(model.ct, [obj_id])].any fun kv =>
      decide (c.content_type_id = kv.1) && kv.2.contains c.object_id) = true) ↔
      (c.content_type_id = model.ct ∧ c.object_id = obj_id) := by
    simp [List.contains, List.elem_iff]
  rw [hbase]

/-- C7 witness: root (type 1, key 1) with a one-to-one relation to
type 2 whose related record is absent and a one-to-many relation to
type 3 with two related records. -/
theorem C7_closure_query_witness :
    ∃ res : List Changes,
      Changes.get_changes_by_obj storeC7 mC7 1 none = Except.ok res ∧
      ∀ c : Changes, c ∈ res ↔ c ∈ storeC7.changes ∧
        ((c.content_type_id = mC7.ct ∧ c.object_id = 1) ∨
          ∃ rel ∈ mC7.related_objects, c.content_type_id = rel.relatedCt ∧
            c.object_id ∈ relValuesD storeC7 rel 1) :=
  C7_closure_query storeC7 mC7 1 none mC7.related_objects ⟨1, 1, []⟩ rfl (by decide)
    (by decide) (by decide)

end ModelsLogging
